import Mathlib

/-!
Verification of the tinyclaw agent-invocation pipeline (src/lib/invoke.ts)
against its natural-language specification.

The TypeScript source is shallowly embedded: the stateful per-agent
conversation map becomes explicit state passing, the network fetch and the
subprocess run become oracle inputs describing the external response, and
fallible code returns `Except`.
-/

/-- A conversation turn, `ConversationMessage` from src/lib/types.ts:
`{role: user|assistant, content}`. -/
structure ConversationMessage where
  role : String
  content : String
deriving DecidableEq, Repr

def userMsg (m : String) : ConversationMessage := ⟨"user", m⟩

def assistantMsg (m : String) : ConversationMessage := ⟨"assistant", m⟩

/-- invoke.ts line 12: keep last N messages to avoid unbounded growth. -/
def MAX_HISTORY_MESSAGES : Nat := 40

/-- invoke.ts lines 80-82: `while (history.length > MAX_HISTORY_MESSAGES) history.shift();`
Removes elements from the head while the length exceeds the cap. -/
def trimHistory : List ConversationMessage → List ConversationMessage
  | [] => []
  | m :: rest =>
    if (m :: rest).length > MAX_HISTORY_MESSAGES then trimHistory rest
    else m :: rest

/-- The in-memory conversation map of invoke.ts line 10
(`Map<string, ConversationMessage[]>`), embedded as a function. -/
def AgentConversations : Type := String → Option (List ConversationMessage)

def AgentConversations.set (c : AgentConversations) (k : String)
    (v : List ConversationMessage) : AgentConversations :=
  fun k2 => if k2 = k then some v else c k2

/-- The `message` object inside a choice of the OpenRouter JSON body. -/
structure ChoiceMessage where
  content : Option String
deriving DecidableEq, Repr

/-- One element of `data.choices`. -/
structure Choice where
  message : Option ChoiceMessage
deriving DecidableEq, Repr

/-- The `error` object of the OpenRouter JSON body. -/
structure ApiErrorBody where
  message : Option String
deriving DecidableEq, Repr

/-- The parsed JSON body, invoke.ts lines 105-108. -/
structure ResponseData where
  choices : Option (List Choice)
  error : Option ApiErrorBody
deriving DecidableEq, Repr

/-- The outcome of the `fetch` call: HTTP status information plus body. -/
structure FetchResponse where
  ok : Bool
  status : Nat
  bodyText : String
  data : ResponseData
deriving DecidableEq, Repr

/-- invoke.ts line 114: `data.choices?.[0]?.message?.content || ''`
(optional chaining, with the empty string for any missing step and for a
falsy content field). -/
def assistantOf (d : ResponseData) : String :=
  (((d.choices.bind List.head?).bind Choice.message).bind ChoiceMessage.content).getD ""

/-- The distinct throw sites of invokeOpenRouter. -/
inductive InvokeError where
  | missingApiKey
  | apiError (status : Nat) (body : String)
  | openRouterError (msg : Option String)
  | emptyResponse
deriving DecidableEq, Repr

/-- invoke.ts lines 67-74: after the reset block, the history array the rest
of the call works on. Reset (or a missing map entry) installs the empty
array; otherwise the stored history is used. -/
def historyAfterReset (conv : AgentConversations) (agentId : String)
    (shouldReset : Bool) : List ConversationMessage :=
  if shouldReset || (conv agentId).isNone then [] else (conv agentId).getD []

/-- invoke.ts lines 77-82: push the user message, then trim from the head
while the cap is exceeded. This is also exactly the `messages` array sent in
the request body (line 96). -/
def historyAfterAppend (conv : AgentConversations) (agentId message : String)
    (shouldReset : Bool) : List ConversationMessage :=
  trimHistory (historyAfterReset conv agentId shouldReset ++ [userMsg message])

/-- invoke.ts lines 55-124, `invokeOpenRouter`. State passing makes the
mutation of the shared conversation map explicit: the function returns the
map as left component (the arrays are mutated in place in the source, so the
map reflects every push even when the call then throws). The fetch outcome
is the oracle argument `resp`. -/
def invokeOpenRouter (apiKey : Option String) (conv : AgentConversations)
    (agentId message : String) (shouldReset : Bool) (resp : FetchResponse) :
    AgentConversations × Except InvokeError String :=
  match apiKey with
  | none => (conv, .error .missingApiKey)
  | some _ =>
    let h1 := historyAfterAppend conv agentId message shouldReset
    let conv2 := conv.set agentId h1
    if resp.ok = false then
      (conv2, .error (.apiError resp.status resp.bodyText))
    else
      match resp.data.error with
      | some e => (conv2, .error (.openRouterError e.message))
      | none =>
        let am := assistantOf resp.data
        if am = "" then (conv2, .error .emptyResponse)
        else (conv2.set agentId (h1 ++ [assistantMsg am]), .ok am)

-- Provider dispatch of invokeAgent (invoke.ts lines 150-203)

/-- invoke.ts line 150: `const provider = agent.provider || 'openrouter'`
(the JS `||` also replaces an empty provider string). -/
def providerName (provider : Option String) : String :=
  match provider with
  | none => "openrouter"
  | some p => if p = "" then "openrouter" else p

/-- The two invocation paths of invokeAgent: the Codex CLI subprocess branch
(lines 152-195) and the OpenRouter HTTP branch (lines 196-203). -/
inductive InvocationStrategy where
  | subprocessCodex
  | httpOpenRouter
deriving DecidableEq, Repr

/-- invoke.ts lines 152 and 196-197: `if (provider === 'openai') { ...codex
subprocess... } else { ...OpenRouter... }`. -/
def selectStrategy (provider : Option String) : InvocationStrategy :=
  if providerName provider = "openai" then .subprocessCodex else .httpOpenRouter

-- Subprocess (Codex) output extraction, invoke.ts lines 181-195

/-- The `item` object of a parsed Codex JSONL line; every field may be
absent. -/
structure CodexItem where
  itemType : Option String
  text : Option String
deriving DecidableEq, Repr

/-- A parsed Codex JSONL line: its `type` field and its `item` object. -/
structure CodexJson where
  jtype : Option String
  item : Option CodexItem
deriving DecidableEq, Repr

/-- One line of the subprocess output after JSON.parse: either the parse
throws (invalid) or yields a JSON object. -/
inductive ParsedLine where
  | invalid
  | parsed (j : CodexJson)
deriving DecidableEq, Repr

/-- Whether a line sets `response`, invoke.ts line 187:
`json.type === 'item.completed' && json.item?.type === 'agent_message'`. -/
def linePicked : ParsedLine → Bool
  | .invalid => false
  | .parsed j =>
    j.jtype = some "item.completed"
      && j.item.bind CodexItem.itemType = some "agent_message"

/-- The body of the for loop over lines, invoke.ts lines 184-193. The
accumulator is the JS `response` variable: `some s` for a string value,
`none` for undefined (an `item` with no `text` field). A line failing
JSON.parse leaves it unchanged. -/
def processLine (resp : Option String) (l : ParsedLine) : Option String :=
  if linePicked l then
    match l with
    | .invalid => resp
    | .parsed j => j.item.bind CodexItem.text
  else resp

/-- invoke.ts line 195 fallback string. -/
def codexFallback : String := "Sorry, I could not generate a response from Codex."

/-- invoke.ts lines 182-195: fold the loop over all lines starting from
`response = ''`, then `return response || fallback` (falsy: undefined or the
empty string). -/
def extractResponse (lines : List ParsedLine) : String :=
  match lines.foldl processLine (some "") with
  | none => codexFallback
  | some s => if s = "" then codexFallback else s

-- runCommand close handler, invoke.ts lines 39-47

/-- The JS `String.prototype.trim`: drop whitespace from both ends. -/
def trimString (s : String) : String :=
  ⟨((s.data.dropWhile Char.isWhitespace).reverse.dropWhile Char.isWhitespace).reverse⟩

/-- invoke.ts lines 39-47: on process close, exit code 0 resolves with the
captured stdout; otherwise reject with trimmed stderr, or the generic
message when that is empty (`stderr.trim() || ...`). -/
def runCommandClose (code : Int) (stdout stderr : String) : Except String String :=
  if code = 0 then .ok stdout
  else
    .error (if trimString stderr = "" then "Command exited with code " ++ toString code
            else trimString stderr)

-- Directive path safety (send_file), modelled: not present under src/

/-- A send_file directive target: the raw path text taken from the agent
response, and the fully resolved path (symlinks followed) the OS would
read. -/
structure DirectiveTarget where
  raw : String
  resolved : String
deriving DecidableEq, Repr

/-- Modelled from the spec: the sandboxed root directory for send_file
targets (SECURITY.md section 2: restricted to files within
`~/.tinyclaw/files/`; the implementing `collectFiles` of
src/queue-processor.ts is not among the provided sources). -/
def FILES_DIR : String := "/home/tinyclaw/.tinyclaw/files"

/-- Modelled from the spec: the three-layer check of `collectFiles`
(src/queue-processor.ts, not among the provided sources), per SECURITY.md
section 2 and spec section 6: absolute paths blocked, a literal `..`
blocked, and the symlink-resolved path must start with FILES_DIR. -/
def isSafeTarget (t : DirectiveTarget) : Bool :=
  !(List.isPrefixOf ['/'] t.raw.data)
    && !(decide (List.IsInfix ['.', '.'] t.raw.data))
    && (List.isPrefixOf (FILES_DIR ++ "/").data t.resolved.data)

/-- Modelled from the spec: a file is read only after the target passes the
safety check; a rejected target is dropped before any read. The read oracle
stands for the filesystem. -/
def collectFile (t : DirectiveTarget) (readFile : String → String) : Option String :=
  if isSafeTarget t then some (readFile t.resolved) else none

-- Helper lemmas about trimHistory

theorem trimHistory_eq_drop (l : List ConversationMessage) :
    trimHistory l = l.drop (l.length - MAX_HISTORY_MESSAGES) := by
  induction l with
  | nil => rfl
  | cons m rest ih =>
    rw [trimHistory]
    by_cases h : (m :: rest).length > MAX_HISTORY_MESSAGES
    · simp only [if_pos h]
      rw [ih]
      have h1 : (m :: rest).length - MAX_HISTORY_MESSAGES
          = rest.length - MAX_HISTORY_MESSAGES + 1 := by
        simp only [List.length_cons] at h ⊢
        omega
      rw [h1]
      rfl
    · simp only [if_neg h]
      have h2 : (m :: rest).length - MAX_HISTORY_MESSAGES = 0 := by omega
      rw [h2, List.drop_zero]

theorem trimHistory_length (l : List ConversationMessage) :
    (trimHistory l).length = min l.length MAX_HISTORY_MESSAGES := by
  rw [trimHistory_eq_drop, List.length_drop]
  omega

theorem trimHistory_suffix (l : List ConversationMessage) :
    trimHistory l <:+ l := by
  rw [trimHistory_eq_drop]
  exact List.drop_suffix _ _

theorem trimHistory_of_length_le (l : List ConversationMessage)
    (h : l.length ≤ MAX_HISTORY_MESSAGES) : trimHistory l = l := by
  rw [trimHistory_eq_drop]
  have h0 : l.length - MAX_HISTORY_MESSAGES = 0 := by omega
  rw [h0, List.drop_zero]

theorem suffix_getLast? {l t : List ConversationMessage} (h : t <:+ l)
    (hne : t ≠ []) : t.getLast? = l.getLast? := by
  obtain ⟨p, rfl⟩ := h
  exact (List.getLast?_append_of_ne_nil p hne).symm

theorem trimHistory_getLast? (l : List ConversationMessage) (hne : l ≠ []) :
    (trimHistory l).getLast? = l.getLast? := by
  apply suffix_getLast? (trimHistory_suffix l)
  have hlen := trimHistory_length l
  intro hcontra
  rw [hcontra] at hlen
  simp only [List.length_nil] at hlen
  have : l.length = 0 ∨ MAX_HISTORY_MESSAGES = 0 := by omega
  rcases this with h1 | h1
  · exact hne (List.length_eq_zero.mp h1)
  · exact absurd h1 (by decide)


theorem AgentConversations.set_same (c : AgentConversations) (k : String)
    (v : List ConversationMessage) : (c.set k v) k = some v := by
  simp [AgentConversations.set]

theorem historyAfterReset_set (conv : AgentConversations) (agentId : String)
    (v : List ConversationMessage) :
    historyAfterReset (conv.set agentId v) agentId false = v := by
  simp [historyAfterReset, AgentConversations.set]

theorem invokeOpenRouter_success (k : String) (conv : AgentConversations)
    (agentId message : String) (shouldReset : Bool) (resp : FetchResponse)
    (hok : resp.ok = true) (herr : resp.data.error = none)
    (hne : assistantOf resp.data ≠ "") :
    invokeOpenRouter (some k) conv agentId message shouldReset resp
      = ((conv.set agentId (historyAfterAppend conv agentId message shouldReset)).set agentId
           (historyAfterAppend conv agentId message shouldReset
             ++ [assistantMsg (assistantOf resp.data)]),
         Except.ok (assistantOf resp.data)) := by
  simp [invokeOpenRouter, hok, herr, hne]

theorem invokeOpenRouter_fail (k : String) (conv : AgentConversations)
    (agentId message : String) (shouldReset : Bool) (resp : FetchResponse)
    (hfail : resp.ok = false ∨ resp.data.error ≠ none ∨ assistantOf resp.data = "") :
    (invokeOpenRouter (some k) conv agentId message shouldReset resp).1
        = conv.set agentId (historyAfterAppend conv agentId message shouldReset)
      ∧ ∃ e, (invokeOpenRouter (some k) conv agentId message shouldReset resp).2
        = Except.error e := by
  by_cases hok : resp.ok = false
  · exact ⟨by simp [invokeOpenRouter, hok],
      ⟨.apiError resp.status resp.bodyText, by simp [invokeOpenRouter, hok]⟩⟩
  · cases herr : resp.data.error with
    | some e =>
      exact ⟨by simp [invokeOpenRouter, hok, herr],
        ⟨.openRouterError e.message, by simp [invokeOpenRouter, hok, herr]⟩⟩
    | none =>
      have ham : assistantOf resp.data = "" := by
        rcases hfail with h | h | h
        · exact absurd h hok
        · exact absurd herr h
        · exact h
      exact ⟨by simp [invokeOpenRouter, hok, herr, ham],
        ⟨.emptyResponse, by simp [invokeOpenRouter, hok, herr, ham]⟩⟩

theorem trimHistory_concat_last_two (h1 : List ConversationMessage)
    (u : ConversationMessage) (hne : h1 ≠ []) (hlast : h1.getLast? = some u) :
    (trimHistory (h1 ++ [u])).getLast? = some u ∧
    (trimHistory (h1 ++ [u])).dropLast.getLast? = some u := by
  have hM : MAX_HISTORY_MESSAGES = 40 := rfl
  have hlen1 : 1 ≤ h1.length := by
    cases h1 with
    | nil => exact absurd rfl hne
    | cons a t => simp
  constructor
  · rw [trimHistory_getLast? _ (by simp), List.getLast?_concat]
  · rw [trimHistory_eq_drop]
    have hd : (h1 ++ [u]).length - MAX_HISTORY_MESSAGES ≤ h1.length := by
      simp only [List.length_append, List.length_cons, List.length_nil, hM]
      omega
    rw [List.drop_append_of_le_length hd, List.dropLast_concat]
    have hsuffix : List.drop ((h1 ++ [u]).length - MAX_HISTORY_MESSAGES) h1 <:+ h1 :=
      List.drop_suffix _ _
    have hne2 : List.drop ((h1 ++ [u]).length - MAX_HISTORY_MESSAGES) h1 ≠ [] := by
      intro hc
      have hlc := congrArg List.length hc
      simp only [List.length_drop, List.length_append, List.length_cons,
        List.length_nil, hM] at hlc
      omega
    rw [suffix_getLast? hsuffix hne2, hlast]

-- Claim theorems

/-- C1: evaluating the provider dispatch of invokeAgent at an agent
configuration with provider set to openai: the code selects the Codex CLI
subprocess branch, which is not the OpenRouter HTTP branch. This contradicts
the claim (and SECURITY.md section 1, which states every provider including
openai routes through the OpenRouter HTTP API with only a deprecation
warning). -/
theorem openai_selects_subprocess :
    selectStrategy (some "openai") = InvocationStrategy.subprocessCodex ∧
    InvocationStrategy.subprocessCodex ≠ InvocationStrategy.httpOpenRouter := by
  exact ⟨rfl, by decide⟩

/-- C2 counterexample: starting from a stored history of 40 turns, one
completed (successful) invocation leaves 41 stored turns, exceeding
MAX_HISTORY_MESSAGES, because the assistant turn is pushed after the trim
with no further trim. -/
theorem history_cap_counterexample :
    (invokeOpenRouter (some "k")
        (AgentConversations.set (fun _ => none) "a" (List.replicate 40 (userMsg "x")))
        "a" "m" false
        ⟨true, 200, "", ⟨some [⟨some ⟨some "hi"⟩⟩], none⟩⟩).2 = Except.ok "hi" ∧
    MAX_HISTORY_MESSAGES <
      (((invokeOpenRouter (some "k")
          (AgentConversations.set (fun _ => none) "a" (List.replicate 40 (userMsg "x")))
          "a" "m" false
          ⟨true, 200, "", ⟨some [⟨some ⟨some "hi"⟩⟩], none⟩⟩).1 "a").getD []).length := by
  exact ⟨rfl, by decide⟩

/-- C2 (amended): after a successful invocation the stored history is the
FIFO-trimmed user append (exactly the most recent turns of the appended
sequence, oldest dropped first) followed by the assistant turn; its length
is at most MAX_HISTORY_MESSAGES + 1, exceeding the cap by at most the final
assistant turn, which the code pushes without a further trim. -/
theorem history_bound_and_fifo (k : String) (conv : AgentConversations)
    (agentId message : String) (shouldReset : Bool) (resp : FetchResponse) (s : String)
    (hok2 : (invokeOpenRouter (some k) conv agentId message shouldReset resp).2
      = Except.ok s) :
    (invokeOpenRouter (some k) conv agentId message shouldReset resp).1 agentId
      = some ((historyAfterReset conv agentId shouldReset ++ [userMsg message]).drop
          ((historyAfterReset conv agentId shouldReset ++ [userMsg message]).length
            - MAX_HISTORY_MESSAGES) ++ [assistantMsg s])
    ∧ (((invokeOpenRouter (some k) conv agentId message shouldReset resp).1 agentId).getD
        []).length ≤ MAX_HISTORY_MESSAGES + 1 := by
  have hfail_none :
      ¬ (resp.ok = false ∨ resp.data.error ≠ none ∨ assistantOf resp.data = "") := by
    intro hf
    obtain ⟨-, e, he⟩ := invokeOpenRouter_fail k conv agentId message shouldReset resp hf
    rw [he] at hok2
    exact Except.noConfusion hok2
  push_neg at hfail_none
  obtain ⟨h1, herr, hne⟩ := hfail_none
  have hok : resp.ok = true := by
    cases hr : resp.ok with
    | false => exact absurd hr h1
    | true => rfl
  have hsucc := invokeOpenRouter_success k conv agentId message shouldReset resp hok herr hne
  rw [hsucc] at hok2
  have hs : assistantOf resp.data = s := by
    exact (Except.ok.injEq _ _).mp hok2
  constructor
  · rw [hsucc]
    simp only [AgentConversations.set_same, historyAfterAppend, trimHistory_eq_drop, hs]
  · rw [hsucc]
    simp only [AgentConversations.set_same, Option.getD_some, List.length_append,
      List.length_cons, List.length_nil, historyAfterAppend]
    have := trimHistory_length (historyAfterReset conv agentId shouldReset ++ [userMsg message])
    omega

/-- C2 witness for the amended theorem at a concrete successful call. -/
theorem history_bound_and_fifo_witness :
    (invokeOpenRouter (some "k") (fun _ => none) "a" "hello" false
        ⟨true, 200, "", ⟨some [⟨some ⟨some "hi"⟩⟩], none⟩⟩).1 "a"
      = some ((historyAfterReset (fun _ => none) "a" false ++ [userMsg "hello"]).drop
          ((historyAfterReset (fun _ => none) "a" false ++ [userMsg "hello"]).length
            - MAX_HISTORY_MESSAGES) ++ [assistantMsg "hi"])
    ∧ (((invokeOpenRouter (some "k") (fun _ => none) "a" "hello" false
        ⟨true, 200, "", ⟨some [⟨some ⟨some "hi"⟩⟩], none⟩⟩).1 "a").getD
        []).length ≤ MAX_HISTORY_MESSAGES + 1 :=
  history_bound_and_fifo "k" (fun _ => none) "a" "hello" false
    ⟨true, 200, "", ⟨some [⟨some ⟨some "hi"⟩⟩], none⟩⟩ "hi" rfl

/-- C3: directive path safety (modelled from the spec: see isSafeTarget).
Absolute targets, targets containing the parent-directory traversal
sequence, and targets whose symlink-resolved path falls outside the sandbox
root are all rejected with no file read; a target literally inside the
sandbox root is accepted. -/
theorem directive_path_safety :
    (∀ (t : DirectiveTarget) (readFile : String → String),
      List.isPrefixOf ['/'] t.raw.data = true → collectFile t readFile = none)
    ∧ (∀ (t : DirectiveTarget) (readFile : String → String),
      List.IsInfix ['.', '.'] t.raw.data → collectFile t readFile = none)
    ∧ (∀ (t : DirectiveTarget) (readFile : String → String),
      List.isPrefixOf (FILES_DIR ++ "/").data t.resolved.data = false →
      collectFile t readFile = none)
    ∧ isSafeTarget ⟨"/etc/passwd", "/etc/passwd"⟩ = false
    ∧ isSafeTarget ⟨"../../secret", "/home/tinyclaw/secret"⟩ = false
    ∧ isSafeTarget ⟨"innocent-link.txt", "/etc/shadow"⟩ = false
    ∧ isSafeTarget ⟨"report.txt", "/home/tinyclaw/.tinyclaw/files/report.txt"⟩ = true := by
  refine ⟨?_, ?_, ?_, by decide, by decide, by decide, by decide⟩
  · intro t readFile h
    simp [collectFile, isSafeTarget, h]
  · intro t readFile h
    have hb : decide (List.IsInfix ['.', '.'] t.raw.data) = true := decide_eq_true h
    simp [collectFile, isSafeTarget, hb]
  · intro t readFile h
    have hfalse : isSafeTarget t = false := by
      simp only [isSafeTarget, h, Bool.and_false]
    simp [collectFile, hfalse]

/-- C3 witness: the absolute target of the spec scenario is rejected with no
read performed. -/
theorem directive_path_safety_witness :
    collectFile ⟨"/etc/passwd", "/etc/passwd"⟩ (fun _ => "data") = none :=
  directive_path_safety.1 ⟨"/etc/passwd", "/etc/passwd"⟩ (fun _ => "data") (by decide)

/-- C4: when the HTTP response has a success status but the assistant
content field is missing or empty, the invocation fails with an error
instead of returning an empty response text. -/
theorem empty_content_fails (k : String) (conv : AgentConversations)
    (agentId message : String) (shouldReset : Bool) (resp : FetchResponse)
    (_hok : resp.ok = true)
    (hempty : ((resp.data.choices.bind List.head?).bind Choice.message).bind
        ChoiceMessage.content = none
      ∨ ((resp.data.choices.bind List.head?).bind Choice.message).bind
        ChoiceMessage.content = some "") :
    ∃ e, (invokeOpenRouter (some k) conv agentId message shouldReset resp).2
      = Except.error e := by
  have ham : assistantOf resp.data = "" := by
    rcases hempty with h | h <;> simp [assistantOf, h]
  exact (invokeOpenRouter_fail k conv agentId message shouldReset resp
    (Or.inr (Or.inr ham))).2

/-- C4 witness: a success-status response carrying an empty content field
makes the invocation fail. -/
theorem empty_content_fails_witness :
    ∃ e, (invokeOpenRouter (some "k") (fun _ => none) "a" "m" false
      ⟨true, 200, "", ⟨some [⟨some ⟨some ""⟩⟩], none⟩⟩).2 = Except.error e :=
  empty_content_fails "k" (fun _ => none) "a" "m" false
    ⟨true, 200, "", ⟨some [⟨some ⟨some ""⟩⟩], none⟩⟩ rfl (Or.inr rfl)

/-- C6: with the reset flag set, the history is emptied before the new user
turn is appended, so right after the reset-and-append step the history (and
the request window) is exactly the one triggering user message, of
length 1. -/
theorem reset_then_append (conv : AgentConversations) (agentId message : String) :
    historyAfterAppend conv agentId message true = [userMsg message]
    ∧ (historyAfterAppend conv agentId message true).length = 1 := by
  exact ⟨rfl, rfl⟩

/-- C7: from an empty prior history, a successful HTTP invocation sends a
one-turn request holding just the user message, returns the provider
assistant message as response text, and leaves exactly the user turn
followed by the assistant turn in the stored history. -/
theorem fresh_history_success (k : String) (conv : AgentConversations)
    (agentId message : String) (resp : FetchResponse)
    (hconv : conv agentId = none ∨ conv agentId = some [])
    (hok : resp.ok = true) (herr : resp.data.error = none)
    (hne : assistantOf resp.data ≠ "") :
    historyAfterAppend conv agentId message false = [userMsg message]
    ∧ (invokeOpenRouter (some k) conv agentId message false resp).2
        = Except.ok (assistantOf resp.data)
    ∧ (invokeOpenRouter (some k) conv agentId message false resp).1 agentId
        = some [userMsg message, assistantMsg (assistantOf resp.data)] := by
  have hreset : historyAfterReset conv agentId false = [] := by
    rcases hconv with h | h <;> simp [historyAfterReset, h]
  have happ : historyAfterAppend conv agentId message false = [userMsg message] := by
    rw [historyAfterAppend, hreset]
    rfl
  have hsucc := invokeOpenRouter_success k conv agentId message false resp hok herr hne
  refine ⟨happ, ?_, ?_⟩
  · rw [hsucc]
  · rw [hsucc]
    simp only [AgentConversations.set_same, happ]
    rfl

/-- C7 witness at the spec scenario: agent default, body hello, reply
hi there. -/
theorem fresh_history_success_witness :
    historyAfterAppend (fun _ => none) "default" "hello" false = [userMsg "hello"]
    ∧ (invokeOpenRouter (some "k") (fun _ => none) "default" "hello" false
        ⟨true, 200, "", ⟨some [⟨some ⟨some "hi there"⟩⟩], none⟩⟩).2
        = Except.ok (assistantOf ⟨some [⟨some ⟨some "hi there"⟩⟩], none⟩)
    ∧ (invokeOpenRouter (some "k") (fun _ => none) "default" "hello" false
        ⟨true, 200, "", ⟨some [⟨some ⟨some "hi there"⟩⟩], none⟩⟩).1 "default"
        = some [userMsg "hello",
            assistantMsg (assistantOf ⟨some [⟨some ⟨some "hi there"⟩⟩], none⟩)] :=
  fresh_history_success "k" (fun _ => none) "default" "hello"
    ⟨true, 200, "", ⟨some [⟨some ⟨some "hi there"⟩⟩], none⟩⟩
    (Or.inl rfl) rfl rfl (by decide)

/-- C8: with the bearer credential absent from the process environment, the
HTTP invocation itself fails with the configuration error (surfaced by the
invocation, which also leaves the conversation store untouched). -/
theorem missing_api_key_fails (conv : AgentConversations)
    (agentId message : String) (shouldReset : Bool) (resp : FetchResponse) :
    invokeOpenRouter none conv agentId message shouldReset resp
      = (conv, Except.error InvokeError.missingApiKey) := rfl

/-- C9: a subprocess close with a non-zero exit code rejects with the
trimmed stderr when that is non-empty, and with the generic exit-code
message otherwise. -/
theorem nonzero_exit_error (code : Int) (stdout stderr : String)
    (h : code ≠ 0) :
    (trimString stderr ≠ "" →
      runCommandClose code stdout stderr = Except.error (trimString stderr))
    ∧ (trimString stderr = "" →
      runCommandClose code stdout stderr
        = Except.error ("Command exited with code " ++ toString code)) := by
  constructor
  · intro h2
    simp [runCommandClose, h, h2]
  · intro h2
    simp [runCommandClose, h, h2]

/-- C9 witness at exit code 7 with stderr boom. -/
theorem nonzero_exit_error_witness :
    runCommandClose 7 "out" "boom" = Except.error (trimString "boom") :=
  (nonzero_exit_error 7 "out" "boom" (by decide)).1 (by decide)

theorem foldl_processLine_no_picked (lines : List ParsedLine) (acc : Option String)
    (h : ∀ l ∈ lines, linePicked l = false) :
    lines.foldl processLine acc = acc := by
  induction lines generalizing acc with
  | nil => rfl
  | cons a t ih =>
    rw [List.foldl_cons]
    have ha : linePicked a = false := h a (List.mem_cons_self a t)
    have hpl : processLine acc a = acc := by simp [processLine, ha]
    rw [hpl]
    exact ih acc (fun l hl => h l (List.mem_cons_of_mem a hl))

/-- C5 counterexample: a single output line that parses as JSON with the
completed-agent-message type and an empty text field. The claim as stated
predicts the response equals that text field (the empty string), but the
code returns the fallback string instead. -/
theorem last_agent_message_counterexample :
    extractResponse
        [ParsedLine.parsed ⟨some "item.completed", some ⟨some "agent_message", some ""⟩⟩]
      = codexFallback
    ∧ codexFallback ≠ "" := by
  exact ⟨rfl, by decide⟩

/-- C5 (amended): lines failing to parse as JSON are silently skipped; the
response equals the text field of the last completed-agent-message line
whenever that text is present and non-empty; and when no such line exists
(and likewise when the last such line has an empty or missing text field)
the fixed fallback string is returned instead of failing. -/
theorem last_agent_message_extracted :
    (∀ (pre post : List ParsedLine) (j : CodexJson) (t : String),
      linePicked (ParsedLine.parsed j) = true →
      j.item.bind CodexItem.text = some t →
      t ≠ "" →
      (∀ l ∈ post, linePicked l = false) →
      extractResponse (pre ++ ParsedLine.parsed j :: post) = t)
    ∧ (∀ lines : List ParsedLine,
      (∀ l ∈ lines, linePicked l = false) →
      extractResponse lines = codexFallback) := by
  constructor
  · intro pre post j t hpick htext ht hpost
    have hstep : processLine (pre.foldl processLine (some "")) (ParsedLine.parsed j)
        = some t := by
      simp [processLine, hpick, htext]
    have hfold : (pre ++ ParsedLine.parsed j :: post).foldl processLine (some "")
        = some t := by
      rw [List.foldl_append, List.foldl_cons, hstep]
      exact foldl_processLine_no_picked post (some t) hpost
    simp [extractResponse, hfold, ht]
  · intro lines h
    have hfold := foldl_processLine_no_picked lines (some "") h
    simp [extractResponse, hfold]

/-- C5 witness for the amended theorem: the spec scenario of one non-JSON
diagnostic line followed by a valid completed-agent-message line. -/
theorem last_agent_message_extracted_witness :
    extractResponse
        [ParsedLine.invalid,
         ParsedLine.parsed ⟨some "item.completed", some ⟨some "agent_message", some "ok"⟩⟩]
      = "ok" :=
  last_agent_message_extracted.1 [ParsedLine.invalid] []
    ⟨some "item.completed", some ⟨some "agent_message", some "ok"⟩⟩ "ok"
    rfl rfl (by decide) (fun l hl => absurd hl (List.not_mem_nil l))

/-- C10: when the HTTP call fails after the history-management step
(non-success status, an error object in the body, or empty assistant
content), the invocation returns an error but the just-appended user turn
stays in the stored history, which is exactly the trimmed user append and
ends with the user turn; a retry of the same message appends that user turn
a second time, so the retry request window ends in two copies of it. -/
theorem failed_invocation_keeps_user_turn (k : String) (conv : AgentConversations)
    (agentId message : String) (shouldReset : Bool) (resp : FetchResponse)
    (hfail : resp.ok = false ∨ resp.data.error ≠ none ∨ assistantOf resp.data = "") :
    (∃ e, (invokeOpenRouter (some k) conv agentId message shouldReset resp).2
      = Except.error e)
    ∧ (invokeOpenRouter (some k) conv agentId message shouldReset resp).1 agentId
      = some (historyAfterAppend conv agentId message shouldReset)
    ∧ (historyAfterAppend conv agentId message shouldReset).getLast?
      = some (userMsg message)
    ∧ (historyAfterAppend
        ((invokeOpenRouter (some k) conv agentId message shouldReset resp).1)
        agentId message false).getLast? = some (userMsg message)
    ∧ (historyAfterAppend
        ((invokeOpenRouter (some k) conv agentId message shouldReset resp).1)
        agentId message false).dropLast.getLast? = some (userMsg message) := by
  obtain ⟨hst, he⟩ := invokeOpenRouter_fail k conv agentId message shouldReset resp hfail
  have hM : MAX_HISTORY_MESSAGES = 40 := rfl
  have h1ne : historyAfterAppend conv agentId message shouldReset ≠ [] := by
    intro hc
    have hlc := congrArg List.length hc
    simp only [historyAfterAppend, trimHistory_length, List.length_append,
      List.length_cons, List.length_nil, hM] at hlc
    omega
  have hlast : (historyAfterAppend conv agentId message shouldReset).getLast?
      = some (userMsg message) := by
    simp only [historyAfterAppend]
    rw [trimHistory_getLast? _ (by simp), List.getLast?_concat]
  have hretry : historyAfterAppend
      ((invokeOpenRouter (some k) conv agentId message shouldReset resp).1)
      agentId message false
    = trimHistory (historyAfterAppend conv agentId message shouldReset
        ++ [userMsg message]) := by
    rw [hst]
    simp only [historyAfterAppend, historyAfterReset_set]
  have hpair := trimHistory_concat_last_two
    (historyAfterAppend conv agentId message shouldReset) (userMsg message) h1ne hlast
  refine ⟨he, ?_, hlast, ?_, ?_⟩
  · rw [hst, AgentConversations.set_same]
  · rw [hretry]
    exact hpair.1
  · rw [hretry]
    exact hpair.2

/-- C10 witness at a concrete failing call (non-success HTTP status). -/
theorem failed_invocation_keeps_user_turn_witness :
    (∃ e, (invokeOpenRouter (some "k") (fun _ => none) "a" "m" false
      ⟨false, 500, "err", ⟨none, none⟩⟩).2 = Except.error e)
    ∧ (invokeOpenRouter (some "k") (fun _ => none) "a" "m" false
        ⟨false, 500, "err", ⟨none, none⟩⟩).1 "a"
      = some (historyAfterAppend (fun _ => none) "a" "m" false)
    ∧ (historyAfterAppend (fun _ => none) "a" "m" false).getLast?
      = some (userMsg "m")
    ∧ (historyAfterAppend
        ((invokeOpenRouter (some "k") (fun _ => none) "a" "m" false
          ⟨false, 500, "err", ⟨none, none⟩⟩).1) "a" "m" false).getLast?
      = some (userMsg "m")
    ∧ (historyAfterAppend
        ((invokeOpenRouter (some "k") (fun _ => none) "a" "m" false
          ⟨false, 500, "err", ⟨none, none⟩⟩).1) "a" "m" false).dropLast.getLast?
      = some (userMsg "m") :=
  failed_invocation_keeps_user_turn "k" (fun _ => none) "a" "m" false
    ⟨false, 500, "err", ⟨none, none⟩⟩ (Or.inl rfl)
